import Mathlib

/-!
Shallow embedding of the django-machina forum permission layer
(machina/apps/forum_permission/handler.py) and of the pluggable markup
length validator (machina/core/validators.py).

The ORM primitives that the handler delegates to are modelled explicitly:

* the forum tree (django-mptt) is an arena of nodes, each node carrying its
  id and the list of ids of its strict ancestors, so that the mptt queries
  get_ancestors and get_descendants(include_self=True) become list filters
  over the arena;
* querysets become lists, queryset membership becomes primary-key (id)
  membership, as Django model equality compares primary keys;
* the object-permission store (ForumUserObjectPermission and
  ForumGroupObjectPermission rows restricted to the Forum content type)
  becomes two lists of grant records;
* the clock (django.utils.timezone.now) and the configured default
  authenticated-user permissions become fields of the environment.

Timestamps are natural numbers measured in days, so that the poll expiry
bound created + timedelta(days=duration) becomes created + duration.
-/

namespace Machina

/-- The forum permission codenames used by the handler and listed by the
permission model. -/
inductive Perm where
  | can_see_forum
  | can_read_forum
  | can_start_new_topics
  | can_post_stickies
  | can_post_announcements
  | can_post_without_approval
  | can_reply_to_topics
  | can_edit_own_posts
  | can_edit_posts
  | can_delete_own_posts
  | can_delete_posts
  | can_create_poll
  | can_vote_in_polls
  | can_attach_file
  | can_download_file
  deriving DecidableEq

/-- A forum: a node of the mptt tree, as an id plus the ids of its strict
ancestors (root first does not matter; only membership is used). -/
structure Forum where
  id : Nat
  ancestors : List Nat
  deriving DecidableEq

/-- A user of the auth subsystem: id, superuser flag, anonymity flag and the
ids of the groups the user belongs to. -/
structure User where
  id : Nat
  is_superuser : Bool
  is_anonymous : Bool
  groups : List Nat
  deriving DecidableEq

/-- A row of ForumUserObjectPermission: a (user, permission, forum) grant. -/
structure UserPermRow where
  user_id : Nat
  perm : Perm
  forum_id : Nat
  deriving DecidableEq

/-- A row of ForumGroupObjectPermission: a (group, permission, forum) grant. -/
structure GroupPermRow where
  group_id : Nat
  perm : Perm
  forum_id : Nat
  deriving DecidableEq

/-- A topic belongs to a forum. -/
structure Topic where
  forum : Forum
  deriving DecidableEq

/-- A forum post: its topic, its original poster, its moderation state and
its creation timestamp. -/
structure Post where
  topic : Topic
  poster_id : Nat
  approved : Bool
  created : Nat
  deriving DecidableEq

/-- A poll attached to a topic: optional duration in days, creation
timestamp and the flag allowing vote changes. -/
structure Poll where
  id : Nat
  topic : Topic
  created : Nat
  duration : Option Nat
  user_changes : Bool
  deriving DecidableEq

/-- A poll option belongs to a poll. -/
structure PollOption where
  id : Nat
  poll_id : Nat
  deriving DecidableEq

/-- A vote cast by a user for a poll option. -/
structure PollVote where
  voter_id : Nat
  poll_option_id : Nat
  deriving DecidableEq

/-- The database and configuration environment the handler runs against:
the forum table, the grant tables, the post table, the poll option and vote
tables, the sentinel user django-guardian substitutes for anonymous users,
the configured DEFAULT_AUTHENTICATED_USER_FORUM_PERMISSIONS and the current
time. -/
structure Env where
  forums : List Forum
  user_perms : List UserPermRow
  group_perms : List GroupPermRow
  posts : List Post
  poll_options : List PollOption
  votes : List PollVote
  anonymous_user : User
  default_auth_perms : List Perm
  now : Nat
  deriving DecidableEq

/-- The ids of a list of forums (values_list of id, and the pk comparison
underlying queryset membership). -/
def forum_ids (fs : List Forum) : List Nat :=
  fs.map (·.id)

/-- The mptt query forum.get_ancestors(): the forums of the table whose id
is an ancestor id of the given forum. -/
def forum_ancestors (env : Env) (f : Forum) : List Forum :=
  env.forums.filter (fun a => decide (a.id ∈ f.ancestors))

/-- The mptt query forum.get_descendants(include_self=True): the forum
itself together with every forum of the table having it among its
ancestors. -/
def forum_descendants_incl_self (env : Env) (f : Forum) : List Forum :=
  env.forums.filter (fun g => decide (g.id = f.id ∨ f.id ∈ g.ancestors))

/-- The substitution performed on anonymous users before permission lookup:
they are mapped to the django-guardian sentinel user. -/
def effective_user (env : Env) (u : User) : User :=
  if u.is_anonymous then env.anonymous_user else u

/-- The forums holding a direct object-level grant for the user or one of
the groups of the user, for at least one of the requested codenames: the
union of the two pk-filtered querysets built by _get_forums_for_user. -/
def direct_grant_forums (env : Env) (u : User) (perm_codenames : List Perm) :
    List Forum :=
  env.forums.filter (fun f =>
    decide ((∃ r ∈ env.user_perms,
        r.user_id = u.id ∧ r.perm ∈ perm_codenames ∧ r.forum_id = f.id) ∨
      (∃ r ∈ env.group_perms,
        r.group_id ∈ u.groups ∧ r.perm ∈ perm_codenames ∧ r.forum_id = f.id)))

/-- PermissionHandler._get_forums_for_user: all the forums for a superuser;
otherwise the forums with a direct user or group grant for one of the
codenames, falling back to all the forums when that set is empty and the
requested codenames are a subset of the configured defaults. Anonymous
users are first replaced by the guardian sentinel user. -/
def get_forums_for_user (env : Env) (u : User) (perm_codenames : List Perm) :
    List Forum :=
  if u.is_superuser then env.forums
  else
    let eu := effective_user env u
    let objects := direct_grant_forums env eu perm_codenames
    if objects.isEmpty ∧ ∀ p ∈ perm_codenames, p ∈ env.default_auth_perms then
      env.forums
    else objects

/-- One iteration of the loop of _get_hidden_forum_ids: skip a forum whose
id is already marked hidden; otherwise, when some ancestor is outside the
visible set or the forum itself is, append the ids of the forum and of all
its descendants. -/
def hidden_step (env : Env) (visible : List Forum) (hidden : List Nat)
    (forum : Forum) : List Nat :=
  if forum.id ∈ hidden then hidden
  else if (∃ a ∈ forum_ancestors env forum, a.id ∉ forum_ids visible) ∨
      forum.id ∉ forum_ids visible then
    hidden ++ forum_ids (forum_descendants_incl_self env forum)
  else hidden

/-- PermissionHandler._get_hidden_forum_ids: the ids of the candidate forums
hidden for the user, computed against the forums visible under
can_see_forum or can_read_forum, each hidden forum dragging all of its
descendants into the hidden set. -/
def get_hidden_forum_ids (env : Env) (u : User) (forums : List Forum) :
    List Nat :=
  let visible := get_forums_for_user env u [.can_see_forum, .can_read_forum]
  forums.foldl (hidden_step env visible) []

/-- PermissionHandler.forum_list_filter: superusers see everything; other
users see the queryset minus the hidden forum ids. -/
def forum_list_filter (env : Env) (qs : List Forum) (u : User) : List Forum :=
  if u.is_superuser then qs
  else qs.filter (fun f => decide (f.id ∉ get_hidden_forum_ids env u qs))

/-- Modelled from the spec: ObjectPermissionChecker.has_perm lives in
machina.core.permission, which is not part of the sources at hand; section
4.3 of the design states that it holds exactly when the user or one of the
groups of the user holds the permission on the forum. -/
def has_perm (env : Env) (u : User) (p : Perm) (f : Forum) : Bool :=
  decide ((∃ r ∈ env.user_perms,
      r.user_id = u.id ∧ r.perm = p ∧ r.forum_id = f.id) ∨
    (∃ r ∈ env.group_perms,
      r.group_id ∈ u.groups ∧ r.perm = p ∧ r.forum_id = f.id))

/-- PermissionHandler._perform_basic_permission_check: granted when the user
is a superuser or holds the permission on the forum. -/
def perform_basic_permission_check (env : Env) (forum : Forum) (u : User)
    (permission : Perm) : Bool :=
  u.is_superuser || has_perm env u permission forum

/-- PermissionHandler.can_read_forum. -/
def can_read_forum (env : Env) (forum : Forum) (u : User) : Bool :=
  perform_basic_permission_check env forum u .can_read_forum

/-- PermissionHandler.can_add_topic. -/
def can_add_topic (env : Env) (forum : Forum) (u : User) : Bool :=
  perform_basic_permission_check env forum u .can_start_new_topics

/-- PermissionHandler.can_add_stickies. -/
def can_add_stickies (env : Env) (forum : Forum) (u : User) : Bool :=
  perform_basic_permission_check env forum u .can_post_stickies

/-- PermissionHandler.can_add_announcements. -/
def can_add_announcements (env : Env) (forum : Forum) (u : User) : Bool :=
  perform_basic_permission_check env forum u .can_post_announcements

/-- PermissionHandler.can_post_without_approval. -/
def can_post_without_approval (env : Env) (forum : Forum) (u : User) : Bool :=
  perform_basic_permission_check env forum u .can_post_without_approval

/-- PermissionHandler.can_add_post: delegates to the forum of the topic. -/
def can_add_post (env : Env) (topic : Topic) (u : User) : Bool :=
  perform_basic_permission_check env topic.forum u .can_reply_to_topics

/-- PermissionHandler.can_edit_post: superuser, or original poster holding
can_edit_own_posts on the forum of the post, or holder of can_edit_posts. -/
def can_edit_post (env : Env) (post : Post) (u : User) : Bool :=
  u.is_superuser
    || (decide (post.poster_id = u.id) &&
        has_perm env u .can_edit_own_posts post.topic.forum)
    || has_perm env u .can_edit_posts post.topic.forum

/-- PermissionHandler.can_delete_post: superuser, or original poster holding
can_delete_own_posts on the forum of the post, or holder of
can_delete_posts. -/
def can_delete_post (env : Env) (post : Post) (u : User) : Bool :=
  u.is_superuser
    || (decide (post.poster_id = u.id) &&
        has_perm env u .can_delete_own_posts post.topic.forum)
    || has_perm env u .can_delete_posts post.topic.forum

/-- PermissionHandler.can_create_polls. -/
def can_create_polls (env : Env) (forum : Forum) (u : User) : Bool :=
  perform_basic_permission_check env forum u .can_create_poll

/-- PermissionHandler.can_attach_files. -/
def can_attach_files (env : Env) (forum : Forum) (u : User) : Bool :=
  perform_basic_permission_check env forum u .can_attach_file

/-- PermissionHandler.can_download_files. -/
def can_download_files (env : Env) (forum : Forum) (u : User) : Bool :=
  perform_basic_permission_check env forum u .can_download_file

/-- The votes of the user in the given poll: the rows of user.poll_votes
whose option belongs to the poll. -/
def user_poll_votes (env : Env) (u : User) (poll : Poll) : List PollVote :=
  env.votes.filter (fun v =>
    decide (v.voter_id = u.id ∧
      ∃ o ∈ env.poll_options, o.id = v.poll_option_id ∧ o.poll_id = poll.id))

/-- The poll expiry test of can_vote_in_poll: the duration is truthy (set
and nonzero) and created plus the duration in days is before now. -/
def poll_expired (env : Env) (poll : Poll) : Bool :=
  match poll.duration with
  | none => false
  | some d => decide (d ≠ 0) && decide (poll.created + d < env.now)

/-- PermissionHandler.can_vote_in_poll: an expired poll denies voting at
once; otherwise the basic can_vote_in_polls check applies, downgraded to
the user_changes flag when the user has already voted. -/
def can_vote_in_poll (env : Env) (poll : Poll) (u : User) : Bool :=
  if poll_expired env poll then false
  else
    let can_vote := perform_basic_permission_check env poll.topic.forum u
      .can_vote_in_polls
    if (user_poll_votes env u poll) ≠ [] ∧ can_vote = true then
      poll.user_changes
    else can_vote

/-- The forums considered by get_forum_last_post once hidden forums are
excluded: the forum and its descendants, minus the hidden ids (no exclusion
for a superuser). -/
def visible_descendant_forums (env : Env) (forum : Forum) (u : User) :
    List Forum :=
  let forums := forum_descendants_incl_self env forum
  let hidden_forums :=
    if u.is_superuser then [] else get_hidden_forum_ids env u forums
  forums.filter (fun f => decide (f.id ∉ hidden_forums))

/-- The queryset of get_forum_last_post: the approved posts whose topic
belongs to one of the remaining forums. -/
def approved_visible_posts (env : Env) (forum : Forum) (u : User) :
    List Post :=
  env.posts.filter (fun p =>
    decide (p.approved = true ∧
      p.topic.forum.id ∈ forum_ids (visible_descendant_forums env forum u)))

/-- PermissionHandler.get_forum_last_post: order the approved posts of the
remaining forums by descending creation time and take the first, if any;
List.argmax returns a post of maximal creation time, as the ordered
queryset indexed at zero does. -/
def get_forum_last_post (env : Env) (forum : Forum) (u : User) :
    Option Post :=
  (approved_visible_posts env forum u).argmax (·.created)

/-- Closure property of a hidden-id list: every forum of the table having a
hidden id among its ancestors has a hidden id itself. The loop of
_get_hidden_forum_ids preserves it because a hidden forum always drags its
whole descendant subtree into the hidden set. -/
def HiddenClosed (env : Env) (hidden : List Nat) : Prop :=
  ∀ x ∈ hidden, ∀ d ∈ env.forums, x ∈ d.ancestors → d.id ∈ hidden

/-! Concrete fixtures used by witnesses and counterexamples. -/

/-- A superuser. -/
def superUser : User := ⟨0, true, false, []⟩

/-- An ordinary authenticated user with no grants and no groups. -/
def plainUser : User := ⟨1, false, false, []⟩

/-- A root forum with a single child and a grandchild below the child. -/
def rootForum : Forum := ⟨10, []⟩

/-- The child of the root forum. -/
def childForum : Forum := ⟨11, [10]⟩

/-- The grandchild, below both the root and the child. -/
def grandchildForum : Forum := ⟨12, [10, 11]⟩

/-- A topic sitting in the child forum. -/
def childTopic : Topic := ⟨childForum⟩

/-- An empty environment over the three-forum tree: no grants, no posts, no
default permissions. -/
def baseEnv : Env :=
  { forums := [rootForum, childForum, grandchildForum]
    user_perms := []
    group_perms := []
    posts := []
    poll_options := []
    votes := []
    anonymous_user := ⟨99, false, false, []⟩
    default_auth_perms := []
    now := 100 }

/-- A poll in the child forum created at time 0 with a five-day duration. -/
def expiredPoll : Poll := ⟨1, childTopic, 0, some 5, true⟩

/-- A poll in the child forum with a zero duration, which Python truthiness
treats as no duration at all. -/
def zeroDurationPoll : Poll := ⟨2, childTopic, 0, some 0, true⟩

/-- A poll in the child forum with no duration that forbids vote changes. -/
def noChangesPoll : Poll := ⟨3, childTopic, 0, none, false⟩

/-- An environment where the plain user holds can_vote_in_polls on the child
forum and has already voted in the no-changes poll. -/
def votedEnv : Env :=
  { baseEnv with
    user_perms := [⟨1, .can_vote_in_polls, 11⟩]
    poll_options := [⟨7, 3⟩]
    votes := [⟨1, 7⟩] }

/-- An approved post by the plain user in the child forum. -/
def basePost : Post := ⟨childTopic, 1, true, 50⟩

/-- The base environment with can_see_forum and can_read_forum configured as
default authenticated-user permissions. -/
def defaultsEnv : Env :=
  { baseEnv with default_auth_perms := [.can_see_forum, .can_read_forum] }

/-!
Embedding of MarkupMaxLengthValidator._get_markup_maxlength_validator
(machina/core/validators.py). The Python import machinery is modelled as a
table of modules, each carrying its dotted name (as a list of components)
and its attribute names. A dotted path is likewise a list of components.
The failure modes of the resolution are reified as error values.
-/

/-- A loadable Python module: its dotted name, split on the dots, and the
names of its attributes. -/
structure PyModule where
  name : List String
  attrs : List String
  deriving DecidableEq

/-- The exceptions that can escape the resolution of the dotted path. -/
inductive PyError where
  | import_error
  | attribute_error
  | value_error
  | improperly_configured
  deriving DecidableEq

/-- The statement module, validator = dotted_path.rsplit(a_dot, 1): the
last component is the attribute name, the rest form the module name; a path
with fewer than two components makes the destructuring assignment fail with
ValueError. -/
def rsplit_path (path : List String) : Except PyError (List String × String) :=
  match path with
  | [] => .error .value_error
  | [_] => .error .value_error
  | a :: b :: rest =>
    .ok ((a :: b :: rest).dropLast,
      (a :: b :: rest).getLast (List.cons_ne_nil a (b :: rest)))

/-- The import of the module part: ImportError when no module of that name
exists. -/
def find_module (modules : List PyModule) (name : List String) :
    Except PyError PyModule :=
  match modules.find? (fun m => decide (m.name = name)) with
  | some m => .ok m
  | none => .error .import_error

/-- The getattr on the imported module: AttributeError when the module has
no attribute of that name. -/
def getattr_module (m : PyModule) (attr : String) : Except PyError String :=
  if attr ∈ m.attrs then .ok attr else .error .attribute_error

/-- The body of the try block: split the path, import the module, fetch the
attribute; the result names the validator that gets applied to the length
limit. -/
def resolve_dotted_path (modules : List PyModule) (path : List String) :
    Except PyError (List String × String) :=
  match rsplit_path path with
  | .error e => .error e
  | .ok (modname, attrname) =>
    match find_module modules modname with
    | .error e => .error e
    | .ok m =>
      match getattr_module m attrname with
      | .error e => .error e
      | .ok a => .ok (modname, a)

/-- MarkupMaxLengthValidator._get_markup_maxlength_validator: the except
clause converts an ImportError into ImproperlyConfigured; every other
exception propagates unchanged. -/
def get_markup_maxlength_validator (modules : List PyModule)
    (dotted_path : List String) : Except PyError (List String × String) :=
  match resolve_dotted_path modules dotted_path with
  | .ok v => .ok v
  | .error .import_error => .error .improperly_configured
  | .error e => .error e

/-! Helper lemmas about the hidden-forum loop. -/

/-- One iteration of the hidden-forum loop never removes an id. -/
theorem mem_hidden_step (env : Env) (visible : List Forum)
    (hidden : List Nat) (g : Forum) {x : Nat} (hx : x ∈ hidden) :
    x ∈ hidden_step env visible hidden g := by
  rw [hidden_step]
  split
  · exact hx
  · split
    · exact List.mem_append_left _ hx
    · exact hx

/-- The whole hidden-forum loop never removes an id. -/
theorem mem_foldl_hidden_step (env : Env) (visible : List Forum)
    (fs : List Forum) (hidden : List Nat) {x : Nat} (hx : x ∈ hidden) :
    x ∈ fs.foldl (hidden_step env visible) hidden := by
  induction fs generalizing hidden with
  | nil => exact hx
  | cons g gs ih => exact ih _ (mem_hidden_step env visible hidden g hx)

/-- A forum of the table meeting the hiding condition gets its id marked by
its own iteration. -/
theorem self_mem_hidden_step (env : Env) (visible : List Forum)
    (hidden : List Nat) (F : Forum) (hFenv : F ∈ env.forums)
    (hcond : (∃ a ∈ forum_ancestors env F, a.id ∉ forum_ids visible) ∨
      F.id ∉ forum_ids visible) :
    F.id ∈ hidden_step env visible hidden F := by
  rw [hidden_step]
  by_cases h1 : F.id ∈ hidden
  · rw [if_pos h1]
    exact h1
  · rw [if_neg h1, if_pos hcond]
    apply List.mem_append_right
    rw [forum_ids, List.mem_map]
    refine ⟨F, ?_, rfl⟩
    rw [forum_descendants_incl_self, List.mem_filter]
    exact ⟨hFenv, by simp⟩

/-- A candidate forum of the table meeting the hiding condition ends up with
its id in the result of the loop. -/
theorem cond_mem_foldl_hidden_step (env : Env) (visible : List Forum)
    (F : Forum) (hFenv : F ∈ env.forums)
    (hcond : (∃ a ∈ forum_ancestors env F, a.id ∉ forum_ids visible) ∨
      F.id ∉ forum_ids visible) :
    ∀ (fs : List Forum) (hidden : List Nat), F ∈ fs →
      F.id ∈ fs.foldl (hidden_step env visible) hidden := by
  intro fs
  induction fs with
  | nil => intro hidden h; cases h
  | cons g gs ih =>
    intro hidden hmem
    rcases List.mem_cons.mp hmem with rfl | hmem
    · exact mem_foldl_hidden_step env visible gs _
        (self_mem_hidden_step env visible hidden F hFenv hcond)
    · exact ih _ hmem

/-- One iteration of the hidden-forum loop preserves closure under the
descendant relation, given that the ancestor lists of the table are
transitively closed. -/
theorem hidden_closed_step (env : Env) (visible : List Forum)
    (hwf : ∀ f ∈ env.forums, ∀ d ∈ env.forums, f.id ∈ d.ancestors →
      ∀ x ∈ f.ancestors, x ∈ d.ancestors)
    (hidden : List Nat) (hc : HiddenClosed env hidden) (g : Forum) :
    HiddenClosed env (hidden_step env visible hidden g) := by
  rw [hidden_step]
  split
  · exact hc
  · split
    · intro x hx d hd hxd
      rcases List.mem_append.mp hx with hx | hx
      · exact List.mem_append_left _ (hc x hx d hd hxd)
      · apply List.mem_append_right
        rw [forum_ids, List.mem_map] at hx
        obtain ⟨f, hf, rfl⟩ := hx
        rw [forum_descendants_incl_self, List.mem_filter] at hf
        obtain ⟨hfe, hfd⟩ := hf
        rw [decide_eq_true_eq] at hfd
        rw [forum_ids, List.mem_map]
        refine ⟨d, ?_, rfl⟩
        rw [forum_descendants_incl_self, List.mem_filter]
        refine ⟨hd, ?_⟩
        rw [decide_eq_true_eq]
        rcases hfd with hfg | hganc
        · right
          rw [← hfg]
          exact hxd
        · right
          exact hwf f hfe d hd hxd g.id hganc
    · exact hc

/-- The whole hidden-forum loop preserves closure under the descendant
relation. -/
theorem hidden_closed_foldl (env : Env) (visible : List Forum)
    (hwf : ∀ f ∈ env.forums, ∀ d ∈ env.forums, f.id ∈ d.ancestors →
      ∀ x ∈ f.ancestors, x ∈ d.ancestors) :
    ∀ (fs : List Forum) (hidden : List Nat), HiddenClosed env hidden →
      HiddenClosed env (fs.foldl (hidden_step env visible) hidden) := by
  intro fs
  induction fs with
  | nil => intro hidden hc; exact hc
  | cons g gs ih =>
    intro hidden hc
    exact ih _ (hidden_closed_step env visible hwf hidden hc g)

/-! Claim theorems. -/

/-- C6: can_edit_post, resp. can_delete_post, is permitted exactly for a
superuser, for the original poster holding the own variant of the
permission on the forum of the post, or for a holder of the any variant on
that forum. -/
theorem can_edit_delete_post_spec (env : Env) (post : Post) (u : User) :
    (can_edit_post env post u = true ↔
      u.is_superuser = true ∨
        (post.poster_id = u.id ∧
          has_perm env u .can_edit_own_posts post.topic.forum = true) ∨
        has_perm env u .can_edit_posts post.topic.forum = true) ∧
    (can_delete_post env post u = true ↔
      u.is_superuser = true ∨
        (post.poster_id = u.id ∧
          has_perm env u .can_delete_own_posts post.topic.forum = true) ∨
        has_perm env u .can_delete_posts post.topic.forum = true) := by
  constructor <;>
    simp [can_edit_post, can_delete_post, Bool.or_eq_true, Bool.and_eq_true,
      decide_eq_true_eq, or_assoc]

/-- C9: a poll whose duration is None or zero is never subjected to the
expiry test, so the voting answer does not depend on the current time. -/
theorem can_vote_in_poll_ignores_time_when_duration_falsy (env : Env)
    (poll : Poll) (u : User)
    (h : poll.duration = none ∨ poll.duration = some 0) (t : Nat) :
    can_vote_in_poll { env with now := t } poll u =
      can_vote_in_poll env poll u := by
  have hexp : ∀ e : Env, poll_expired e poll = false := by
    intro e
    rcases h with h | h <;> simp [poll_expired, h]
  simp only [can_vote_in_poll, hexp, Bool.false_eq_true, if_false]
  rfl

/-- Witness for C9: the no-changes poll of the fixtures has no duration, so
moving the clock a million days ahead does not change the answer. -/
theorem can_vote_in_poll_ignores_time_when_duration_falsy_witness :
    can_vote_in_poll { votedEnv with now := 1000000 } noChangesPoll
        plainUser =
      can_vote_in_poll votedEnv noChangesPoll plainUser :=
  can_vote_in_poll_ignores_time_when_duration_falsy votedEnv noChangesPoll
    plainUser (Or.inl rfl) 1000000

/-- C5: on a non-expired poll where the user has already voted, voting is
allowed exactly when the basic can_vote_in_polls check passes and the poll
allows vote changes. -/
theorem can_vote_in_poll_voted_requires_user_changes (env : Env)
    (poll : Poll) (u : User) (hexp : poll_expired env poll = false)
    (hv : user_poll_votes env u poll ≠ []) :
    can_vote_in_poll env poll u =
      (perform_basic_permission_check env poll.topic.forum u
          .can_vote_in_polls
        && poll.user_changes) := by
  cases hb : perform_basic_permission_check env poll.topic.forum u
      .can_vote_in_polls <;>
    simp [can_vote_in_poll, hexp, hb, hv]

/-- Witness for C5: the plain user has voted in the no-changes poll and
holds the voting permission, yet the answer downgrades to the user_changes
flag, here false. -/
theorem can_vote_in_poll_voted_requires_user_changes_witness :
    (can_vote_in_poll votedEnv noChangesPoll plainUser =
      (perform_basic_permission_check votedEnv noChangesPoll.topic.forum
          plainUser .can_vote_in_polls
        && noChangesPoll.user_changes)) ∧
    can_vote_in_poll votedEnv noChangesPoll plainUser = false :=
  ⟨can_vote_in_poll_voted_requires_user_changes votedEnv noChangesPoll
      plainUser (by decide) (by decide),
    by decide⟩

/-- C4 (amended): a poll whose duration is set and nonzero, with creation
time plus duration in days earlier than now, denies voting to every user,
whatever the grants. -/
theorem can_vote_in_poll_expired_denies (env : Env) (poll : Poll) (u : User)
    (d : Nat) (hd : poll.duration = some d) (hnz : d ≠ 0)
    (hlt : poll.created + d < env.now) :
    can_vote_in_poll env poll u = false := by
  have hexp : poll_expired env poll = true := by
    simp [poll_expired, hd, hnz, hlt]
  simp [can_vote_in_poll, hexp]

/-- Witness for C4: the five-day poll created at time 0 is expired at time
100 and denies voting even to a superuser. -/
theorem can_vote_in_poll_expired_denies_witness :
    can_vote_in_poll baseEnv expiredPoll superUser = false :=
  can_vote_in_poll_expired_denies baseEnv expiredPoll superUser 5 rfl
    (by decide) (by decide)

/-- Counterexample for C4 as frozen: a poll with the non-null duration zero,
created longer ago than its duration, still allows voting, because the
truthiness test of the source skips the expiry check for a zero duration. -/
theorem can_vote_in_poll_zero_duration_counterexample :
    zeroDurationPoll.duration = some 0 ∧
    zeroDurationPoll.created + zeroDurationPoll.duration.getD 0 <
      baseEnv.now ∧
    can_vote_in_poll baseEnv zeroDurationPoll superUser = true := by decide

/-- C2 (amended): every permission-check method except can_vote_in_poll
returns permitted for a superuser on any object; can_vote_in_poll grants a
superuser exactly when the poll is not expired and either the superuser has
not voted in it yet or the poll allows vote changes. -/
theorem superuser_checks (env : Env) (f : Forum) (t : Topic) (p : Post)
    (poll : Poll) (u : User) (h : u.is_superuser = true) :
    can_read_forum env f u = true ∧ can_add_topic env f u = true ∧
    can_add_stickies env f u = true ∧ can_add_announcements env f u = true ∧
    can_post_without_approval env f u = true ∧ can_add_post env t u = true ∧
    can_edit_post env p u = true ∧ can_delete_post env p u = true ∧
    can_create_polls env f u = true ∧ can_attach_files env f u = true ∧
    can_download_files env f u = true ∧
    can_vote_in_poll env poll u =
      (!poll_expired env poll &&
        ((user_poll_votes env u poll).isEmpty || poll.user_changes)) := by
  have hb : ∀ (forum : Forum) (perm : Perm),
      perform_basic_permission_check env forum u perm = true := by
    intro forum perm
    simp [perform_basic_permission_check, h]
  refine ⟨hb f _, hb f _, hb f _, hb f _, hb f _, hb t.forum _, ?_, ?_,
    hb f _, hb f _, hb f _, ?_⟩
  · simp [can_edit_post, h]
  · simp [can_delete_post, h]
  · cases hexp : poll_expired env poll
    · cases hvv : user_poll_votes env u poll <;>
        simp [can_vote_in_poll, hexp, hvv, perform_basic_permission_check, h]
    · simp [can_vote_in_poll, hexp]

/-- Witness for C2 (amended): the fixture superuser passes the read check on
the child forum. -/
theorem superuser_checks_witness :
    can_read_forum baseEnv childForum superUser = true :=
  (superuser_checks baseEnv childForum childTopic basePost noChangesPoll
    superUser rfl).1

/-- Counterexample for C2 as frozen: the fixture superuser is denied voting
in the expired poll, so not every check returns permitted for a superuser. -/
theorem superuser_denied_expired_poll_counterexample :
    superUser.is_superuser = true ∧
    can_vote_in_poll baseEnv expiredPoll superUser = false := by decide

/-- C3: for a non-superuser, _get_forums_for_user returns all the forums
when the direct user-or-group grant set of the effective user is empty and
the requested codenames are all among the configured defaults, and exactly
that grant set otherwise. -/
theorem get_forums_for_user_spec (env : Env) (u : User)
    (perm_codenames : List Perm) (h : u.is_superuser = false) :
    get_forums_for_user env u perm_codenames =
      if direct_grant_forums env (effective_user env u) perm_codenames = [] ∧
          ∀ p ∈ perm_codenames, p ∈ env.default_auth_perms then
        env.forums
      else direct_grant_forums env (effective_user env u) perm_codenames := by
  simp [get_forums_for_user, h, List.isEmpty_iff]

/-- Witness for C3: the plain user has no grant at all, and the fallback
applies when asking for the configured defaults, so every forum comes
back. -/
theorem get_forums_for_user_spec_witness :
    get_forums_for_user defaultsEnv plainUser
        [.can_see_forum, .can_read_forum] =
      defaultsEnv.forums :=
  (get_forums_for_user_spec defaultsEnv plainUser
    [.can_see_forum, .can_read_forum] rfl).trans (by decide)

/-- C10: hiding the child forum of the fixtures also marks the id of its
grandchild descendant, which is not part of the candidate set passed to
_get_hidden_forum_ids. -/
theorem hidden_ids_include_descendants_outside_candidates :
    grandchildForum.id ∈
      get_hidden_forum_ids baseEnv plainUser [childForum] ∧
    grandchildForum.id ∉ forum_ids [childForum] := by decide

/-- C1: over a forum table whose ancestor lists are transitively closed, a
candidate forum F with an ancestor A outside the visible set of the user
gets its id into the hidden set, together with the ids of every descendant
of F in the table, whatever the own grants of F. -/
theorem hidden_forum_ids_monotonic (env : Env) (u : User) (fs : List Forum)
    (F A : Forum)
    (hwf : ∀ f ∈ env.forums, ∀ d ∈ env.forums, f.id ∈ d.ancestors →
      ∀ x ∈ f.ancestors, x ∈ d.ancestors)
    (hFfs : F ∈ fs) (hFenv : F ∈ env.forums) (hAenv : A ∈ env.forums)
    (hAanc : A.id ∈ F.ancestors)
    (hAhid : A.id ∉ forum_ids (get_forums_for_user env u
      [.can_see_forum, .can_read_forum])) :
    F.id ∈ get_hidden_forum_ids env u fs ∧
      ∀ D ∈ env.forums, F.id ∈ D.ancestors →
        D.id ∈ get_hidden_forum_ids env u fs := by
  have hunfold : get_hidden_forum_ids env u fs =
      fs.foldl (hidden_step env (get_forums_for_user env u
        [.can_see_forum, .can_read_forum])) [] := rfl
  rw [hunfold]
  set visible := get_forums_for_user env u [.can_see_forum, .can_read_forum]
    with hvis
  have hcond : (∃ a ∈ forum_ancestors env F, a.id ∉ forum_ids visible) ∨
      F.id ∉ forum_ids visible := by
    left
    refine ⟨A, ?_, hAhid⟩
    rw [forum_ancestors, List.mem_filter]
    exact ⟨hAenv, by rw [decide_eq_true_eq]; exact hAanc⟩
  have hFid := cond_mem_foldl_hidden_step env visible F hFenv hcond fs []
    hFfs
  have hcl : HiddenClosed env (fs.foldl (hidden_step env visible) []) :=
    hidden_closed_foldl env visible hwf fs []
      (by intro x hx; exact absurd hx (List.not_mem_nil x))
  exact ⟨hFid, fun D hD hFD => hcl F.id hFid D hD hFD⟩

/-- Witness for C1: the plain user sees nothing of the base environment, so
with the child forum as only candidate, the child id is hidden and the
grandchild id follows it, although the root is the invisible ancestor. -/
theorem hidden_forum_ids_monotonic_witness :
    childForum.id ∈ get_hidden_forum_ids baseEnv plainUser [childForum] ∧
    grandchildForum.id ∈
      get_hidden_forum_ids baseEnv plainUser [childForum] := by
  have h := hidden_forum_ids_monotonic baseEnv plainUser [childForum]
    childForum rootForum (by decide) (by decide) (by decide) (by decide)
    (by decide) (by decide)
  exact ⟨h.1, h.2 grandchildForum (by decide) (by decide)⟩

/-- C7: get_forum_last_post returns none exactly when no approved post sits
in a non-hidden forum among the forum and its descendants, and otherwise an
approved post of those forums of maximal creation time. -/
theorem get_forum_last_post_spec (env : Env) (forum : Forum) (u : User) :
    (get_forum_last_post env forum u = none ↔
      ∀ q ∈ env.posts, q.approved = true →
        q.topic.forum.id ∉
          forum_ids (visible_descendant_forums env forum u)) ∧
    ∀ p, get_forum_last_post env forum u = some p →
      p ∈ env.posts ∧ p.approved = true ∧
      p.topic.forum.id ∈ forum_ids (visible_descendant_forums env forum u) ∧
      ∀ q ∈ env.posts, q.approved = true →
        q.topic.forum.id ∈
          forum_ids (visible_descendant_forums env forum u) →
        q.created ≤ p.created := by
  constructor
  · rw [get_forum_last_post, List.argmax_eq_none, approved_visible_posts,
      List.filter_eq_nil_iff]
    simp only [decide_eq_true_eq, not_and]
  · intro p hp
    rw [get_forum_last_post] at hp
    have hmem := List.argmax_mem (Option.mem_def.mpr hp)
    rw [approved_visible_posts, List.mem_filter, decide_eq_true_eq] at hmem
    obtain ⟨hpe, hap, hvis⟩ := hmem
    refine ⟨hpe, hap, hvis, ?_⟩
    intro q hq hqap hqvis
    have hqmem : q ∈ approved_visible_posts env forum u := by
      rw [approved_visible_posts, List.mem_filter, decide_eq_true_eq]
      exact ⟨hq, hqap, hqvis⟩
    exact List.le_of_mem_argmax hqmem (Option.mem_def.mpr hp)

/-- Witness for C7: the base environment holds no post at all, so the last
post of the root forum for the plain user is none. -/
theorem get_forum_last_post_spec_witness :
    get_forum_last_post baseEnv rootForum plainUser = none :=
  (get_forum_last_post_spec baseEnv rootForum plainUser).1.mpr (by decide)

/-- C8 (amended): when the module part of the dotted path resolves to no
module, the construction of the markup length validator fails with
ImproperlyConfigured. -/
theorem markup_validator_missing_module (modules : List PyModule)
    (path : List String) (hlen : 2 ≤ path.length)
    (hmiss : ∀ m ∈ modules, m.name ≠ path.dropLast) :
    get_markup_maxlength_validator modules path =
      .error .improperly_configured := by
  obtain ⟨a, b, rest, rfl⟩ : ∃ a b rest, path = a :: b :: rest := by
    match path with
    | [] => simp at hlen
    | [x] => simp at hlen
    | a :: b :: r => exact ⟨a, b, r, rfl⟩
  have h2 : find_module modules (a :: b :: rest).dropLast =
      .error .import_error := by
    rw [find_module]
    have hfind : modules.find?
        (fun m => decide (m.name = (a :: b :: rest).dropLast)) = none := by
      rw [List.find?_eq_none]
      intro m hm
      simpa using hmiss m hm
    rw [hfind]
  simp only [List.dropLast_cons₂] at h2
  simp [get_markup_maxlength_validator, resolve_dotted_path, rsplit_path, h2]

/-- Witness for C8 (amended): a dotted path pointing into an absent module
yields ImproperlyConfigured. -/
theorem markup_validator_missing_module_witness :
    get_markup_maxlength_validator [⟨["existing"], ["check_len"]⟩]
        ["missing", "check_len"] =
      .error .improperly_configured :=
  markup_validator_missing_module [⟨["existing"], ["check_len"]⟩]
    ["missing", "check_len"] (by decide) (by decide)

/-- Counterexample for C8 as frozen: a dotted path whose module exists but
whose attribute does not escapes with AttributeError, which the except
clause for ImportError does not convert into ImproperlyConfigured. -/
theorem markup_validator_missing_attr_counterexample :
    get_markup_maxlength_validator [⟨["mod"], ["present"]⟩]
        ["mod", "absent"] =
      .error .attribute_error ∧
    (Except.error PyError.attribute_error :
        Except PyError (List String × String)) ≠
      .error .improperly_configured :=
  ⟨rfl, by simp⟩

end Machina
